import Mathlib

/-!
# Crafts Emporium — product/variant reconciliation core, shallow embedding

Shallow embedding of the product server actions (`createProduct`,
`getProducts`, `updateProduct`, `deleteProduct`, `getProductWithVariants`,
`getProductVariants`) and the store/cache state they act on.

Modelling conventions:
* table rows are Lean structures; SQL `NULL`able columns are `Option`;
  `CURRENT_DATE` is an abstract `now : Nat` (day granularity);
* caller-submitted variant fields are strings in the source and are coerced
  with `Number(...)` at every use site; we model them by the numeric values
  they coerce to (`Int`), so size comparison is comparison of the coerced
  numeric values, as in the source;
* the `Promise.all` fan-outs of per-row UPDATEs are modelled as sequential
  folds over the corresponding lists (each step is a whole-table UPDATE);
* generated surrogate ids are supplied as `nextId`, consecutive for a batch;
* SQL `ORDER BY` is modelled with `List.insertionSort` (deterministic, stable);
* the trigram `SIMILARITY` function is an uninterpreted parameter
  `sim : String → String → ℚ`; a similarity comparison whose query argument
  is SQL `NULL` (JS `undefined` reaching the query builder) is not-true,
  following SQL three-valued logic.
-/

/-- A row of the `variants` table. -/
structure DBVariant where
  id : Nat
  productId : Nat
  size : Int
  price : Int
  quantity : Int
  deletedAt : Option Nat
deriving Repr, DecidableEq

/-- A row of the `products` table. -/
structure DBProduct where
  id : Nat
  title : String
  description : String
  image : String
  createdAt : Nat
  deletedAt : Option Nat
deriving Repr, DecidableEq

/-- A row of the `purchase_items` table (read-only for this core). -/
structure PurchaseItem where
  id : Nat
  variantId : Nat
  quantity : Int
  price : Int
deriving Repr, DecidableEq

/-- The relational store. -/
structure Store where
  products : List DBProduct
  variants : List DBVariant
  purchaseItems : List PurchaseItem
deriving Repr, DecidableEq

/-- A caller-submitted variant (`TProduct["variants"][number]`): size, price,
quantity, already coerced to numbers (no surrogate id). -/
structure TVariant where
  size : Int
  price : Int
  quantity : Int
deriving Repr, DecidableEq

/-- Caller input for `createProduct` (`TProduct`). -/
structure TProduct where
  title : String
  description : String
  imageId : String
  variants : List TVariant
deriving Repr, DecidableEq

/-- Caller input for `updateProduct` (`Partial<TProduct>`): every field may be
absent. -/
structure PartialTProduct where
  title : Option String
  description : Option String
  imageId : Option String
  variants : Option (List TVariant)
deriving Repr, DecidableEq

/-! ## Variant reconciler (`updateProduct`, classification step)

Direct transcriptions of the three `filter`s computed on
`prevVariants` (all rows of `variants` with the product's id, soft-deleted
ones included) and `currentVariants = data.variants || []`. -/

/-- `removedVariants`: previous variants whose (numeric) size appears in no
submitted variant. -/
def removedVariants (prevVariants : List DBVariant) (currentVariants : List TVariant) :
    List DBVariant :=
  prevVariants.filter fun prevVariant =>
    ! currentVariants.any fun currentVariant => currentVariant.size == prevVariant.size

/-- `addedVariants`: submitted variants whose size appears in no previous
variant. -/
def addedVariants (prevVariants : List DBVariant) (currentVariants : List TVariant) :
    List TVariant :=
  currentVariants.filter fun currentVariant =>
    ! prevVariants.any fun prevVariant => prevVariant.size == currentVariant.size

/-- `updatedVariants`: submitted variants for which `find` locates a previous
variant of the same size with a different price or quantity. -/
def updatedVariants (prevVariants : List DBVariant) (currentVariants : List TVariant) :
    List TVariant :=
  currentVariants.filter fun currentVariant =>
    match prevVariants.find? (fun prevVariant => prevVariant.size == currentVariant.size) with
    | some prevVariant =>
        prevVariant.price != currentVariant.price ||
        prevVariant.quantity != currentVariant.quantity
    | none => false

/-! ## `updateProduct`: effect of the transaction on the store -/

/-- JS truthiness of an optional string field of `Partial<TProduct>`:
present and non-empty (`data.title ? { title: data.title } : {}`). -/
def jsTruthy (o : Option String) : Bool :=
  match o with
  | some s => s != ""
  | none => false

/-- The spread-patch on the product row: each field is overwritten only when
the submitted value is truthy. -/
def patchProductFields (p : DBProduct) (data : PartialTProduct) : DBProduct :=
  { p with
    image := if jsTruthy data.imageId then data.imageId.getD p.image else p.image
    title := if jsTruthy data.title then data.title.getD p.title else p.title
    description :=
      if jsTruthy data.description then data.description.getD p.description
      else p.description }

/-- The rows INSERTed for an added variant batch: fresh consecutive ids from
`nextId`, `deletedAt` defaulting to `NULL`. -/
def addedRows (pid : Nat) (nextId : Nat) (added : List TVariant) : List DBVariant :=
  added.enum.map fun ia =>
    { id := nextId + ia.1, productId := pid, size := ia.2.size,
      price := ia.2.price, quantity := ia.2.quantity, deletedAt := none }

/-- One INSERT of an added variant batch appended to the table. -/
def insertAddedVariants (vars : List DBVariant) (pid : Nat) (nextId : Nat)
    (added : List TVariant) : List DBVariant :=
  vars ++ addedRows pid nextId added

/-- The per-row effect of one
`UPDATE variants SET size, quantity, price, deletedAt = NULL WHERE size = u.size AND productId = pid`. -/
def updStep (pid : Nat) (u : TVariant) (v : DBVariant) : DBVariant :=
  if v.size == u.size && v.productId == pid then
    { v with size := u.size, quantity := u.quantity, price := u.price, deletedAt := none }
  else v

/-- The batch of UPDATEs issued for `updatedVariants` (the `Promise.all`
fan-out, determinised as a fold: each element is a whole-table UPDATE). -/
def applyUpdatedVariants (vars : List DBVariant) (pid : Nat) (updated : List TVariant) :
    List DBVariant :=
  updated.foldl (fun acc u => acc.map (updStep pid u)) vars

/-- The per-row effect of one
`UPDATE variants SET deletedAt = CURRENT_DATE WHERE size = r.size AND productId = pid`. -/
def remStep (pid : Nat) (now : Nat) (r : DBVariant) (v : DBVariant) : DBVariant :=
  if v.size == r.size && v.productId == pid then { v with deletedAt := some now } else v

/-- The batch of UPDATEs issued for `removedVariants`. -/
def applyRemovedVariants (vars : List DBVariant) (pid : Nat) (removed : List DBVariant)
    (now : Nat) : List DBVariant :=
  removed.foldl (fun acc r => acc.map (remStep pid now r)) vars

/-- The effect of `updateProduct`'s transaction when it commits: load
`prevVariants` (soft-deleted included), classify against
`data.variants || []`, patch the product row, then insert the added,
overwrite-and-undelete the updated, and soft-delete the removed variants. -/
def updateProductTx (st : Store) (id : Nat) (data : PartialTProduct) (now : Nat)
    (nextId : Nat) : Store :=
  let prevVariants := st.variants.filter fun v => v.productId == id
  let currentVariants := data.variants.getD []
  let removed := removedVariants prevVariants currentVariants
  let added := addedVariants prevVariants currentVariants
  let updated := updatedVariants prevVariants currentVariants
  let products1 := st.products.map fun p => if p.id == id then patchProductFields p data else p
  let vars1 := insertAddedVariants st.variants id nextId added
  let vars2 := applyUpdatedVariants vars1 id updated
  let vars3 := applyRemovedVariants vars2 id removed now
  { st with products := products1, variants := vars3 }

/-- Whether the spread-built patch object
`{...(data.imageId ? {image} : {}), ...(data.title ? {title} : {}),
...(data.description ? {description} : {})}` has at least one entry. When it
is empty, `trx.update(products).set({})` throws drizzle's
`"No values to set"`. -/
def hasProductPatch (data : PartialTProduct) : Bool :=
  jsTruthy data.imageId || jsTruthy data.title || jsTruthy data.description

/-- Result of `updateProduct` as seen by the caller. -/
inductive UpdateProductResult where
  | ok (msg : String)
  | err (msg : String)
deriving Repr, DecidableEq

/-- `updateProduct(id, data)`: when the product patch object is empty (no
truthy title/description/imageId), the `UPDATE products SET {}` throws
drizzle's `"No values to set"` before any variant write, the whole
transaction rolls back (store unchanged) and the shared `catch` answers
`"Error updating product"`; otherwise the transaction commits the patch and
the reconciliation writes, and the caller gets the success message. -/
def updateProduct (st : Store) (id : Nat) (data : PartialTProduct) (now : Nat)
    (nextId : Nat) : UpdateProductResult × Store :=
  if hasProductPatch data then
    (.ok "Product updated successfully", updateProductTx st id data now nextId)
  else
    (.err "Error updating product", st)

/-! ## `deleteProduct`: effect on the store -/

/-- `deleteProduct`'s store write:
`UPDATE products SET deletedAt = CURRENT_DATE WHERE id = id` —
unconditional, with no guard on the row being live. -/
def deleteProduct (st : Store) (id : Nat) (now : Nat) : Store :=
  { st with
    products := st.products.map fun p =>
      if p.id == id then { p with deletedAt := some now } else p }

/-! ## Listing, count and fuzzy-search queries -/

/-- JS `String.prototype.trim`, modelled on the character list (core
`String.trim` is substring machinery the kernel cannot evaluate; this
computable model strips leading and trailing whitespace the same way). -/
def jsTrim (s : String) : String :=
  ⟨((s.data.dropWhile Char.isWhitespace).reverse.dropWhile Char.isWhitespace).reverse⟩

def defaultLimit : Nat := 10

/-- Active (non-soft-deleted) variant rows of a product — the rows the
`json_agg` collects under the `isNull(variants.deletedAt)` condition. -/
def activeVariantRows (st : Store) (pid : Nat) : List DBVariant :=
  st.variants.filter fun v => v.productId == pid && v.deletedAt.isNone

/-- `ORDER BY products.id DESC` as a relation. -/
def idDescend (a b : DBProduct) : Prop := b.id ≤ a.id

instance : DecidableRel idDescend := fun a b => inferInstanceAs (Decidable (b.id ≤ a.id))

instance : IsTotal DBProduct idDescend := ⟨fun a b => le_total b.id a.id⟩

instance : IsTrans DBProduct idDescend := ⟨fun _ _ _ h h' => le_trans h' h⟩

/-- The unpaginated result set of `getProductsFromDBWithoutQuery`:
products with `deletedAt IS NULL`, inner-joined to variants with
`deletedAt IS NULL` (so a product survives the `GROUP BY` only if it has at
least one active variant), ordered by descending id, each carrying its
aggregated active variants. -/
def listingAll (st : Store) : List (DBProduct × List DBVariant) :=
  ((st.products.filter fun p =>
      p.deletedAt.isNone && !(activeVariantRows st p.id).isEmpty).insertionSort
    idDescend).map fun p => (p, activeVariantRows st p.id)

/-- `getProductsFromDBWithoutQuery(offset, limit)`:
`LIMIT limit OFFSET offset * limit` over the ordered grouped rows. -/
def getProductsFromDBWithoutQuery (st : Store) (offset limit : Nat) :
    List (DBProduct × List DBVariant) :=
  ((listingAll st).drop (offset * limit)).take limit

/-- `getProductsCountFromDB`: `COUNT(products.id) WHERE deletedAt IS NULL`
(no join — variants play no role). -/
def getProductsCountFromDB (st : Store) : Nat :=
  (st.products.filter fun p => p.deletedAt.isNone).length

/-- The two cached values (`ProductsCache`, `ProductsCountCache`);
`none` is a cache miss. -/
structure CacheState where
  productList : Option (List (DBProduct × List DBVariant))
  countVal : Option Int
deriving Repr, DecidableEq

/-- The count-cache read-through at the top of `getProducts`:
`let total = await ProductsCountCache.get(); if (!total) {...}` — a missing
or zero (JS-falsy) cached count is recomputed from the store and written
back. -/
def getCountWithCache (st : Store) (c : CacheState) : Int × CacheState :=
  match c.countVal with
  | some t =>
      if t == 0 then
        ((getProductsCountFromDB st : Int),
          { c with countVal := some (getProductsCountFromDB st : Int) })
      else (t, c)
  | none =>
      ((getProductsCountFromDB st : Int),
        { c with countVal := some (getProductsCountFromDB st : Int) })

/-- Similarity score of a product title against the (possibly absent) query:
`SIMILARITY(title, query)`, `0` standing for the SQL `NULL` of an absent
query (only ever compared through `simGtThreshold`, which is false there). -/
def simOf (sim : String → String → ℚ) (q : Option String) (p : DBProduct) : ℚ :=
  match q with
  | some qs => sim p.title qs
  | none => 0

/-- The WHERE condition `SIMILARITY(title, query) > threshold`: strict, and
not-true when the query argument is SQL `NULL` (three-valued logic). -/
def simGtThreshold (sim : String → String → ℚ) (q : Option String) (threshold : ℚ)
    (p : DBProduct) : Bool :=
  match q with
  | some qs => decide (threshold < sim p.title qs)
  | none => false

/-- `ORDER BY SIMILARITY(title, query) DESC` as a relation. -/
def simDescend (sim : String → String → ℚ) (q : Option String) (a b : DBProduct) : Prop :=
  simOf sim q b ≤ simOf sim q a

instance (sim : String → String → ℚ) (q : Option String) :
    DecidableRel (simDescend sim q) :=
  fun a b => inferInstanceAs (Decidable (simOf sim q b ≤ simOf sim q a))

instance (sim : String → String → ℚ) (q : Option String) :
    IsTotal DBProduct (simDescend sim q) :=
  ⟨fun a b => le_total (simOf sim q b) (simOf sim q a)⟩

instance (sim : String → String → ℚ) (q : Option String) :
    IsTrans DBProduct (simDescend sim q) :=
  ⟨fun _ _ _ h h' => le_trans h' h⟩

/-- The products matched by the main fuzzy search of `getProducts`:
similarity strictly above `0.3`, product not soft-deleted, and at least one
active variant (the inner join). -/
def fuzzyMatches (st : Store) (sim : String → String → ℚ) (q : Option String) :
    List DBProduct :=
  st.products.filter fun p =>
    simGtThreshold sim q (mkRat 3 10) p && p.deletedAt.isNone &&
      !(activeVariantRows st p.id).isEmpty

/-- One page of the fuzzy search: matches ordered by descending similarity,
`LIMIT limit OFFSET offset * limit`, each product with its aggregated active
variants. -/
def fuzzyPage (st : Store) (sim : String → String → ℚ) (q : Option String)
    (offset limit : Nat) : List (DBProduct × List DBVariant) :=
  ((((fuzzyMatches st sim q).insertionSort (simDescend sim q)).drop
      (offset * limit)).take limit).map fun p => (p, activeVariantRows st p.id)

/-- Result of `getProducts` as seen by the caller. -/
inductive GetProductsResult where
  | ok (data : List (DBProduct × List DBVariant)) (total : Int)
  | err (msg : String)
deriving Repr, DecidableEq

/-- `getProducts(query?, offset, limit)`. Branching is exactly the source's:
the cache path is guarded by `query?.trim() === ""` (`jsTrim`) — true only when `query`
is PRESENT and trims to the empty string; an absent query (`undefined`)
falls through to the fuzzy-search branch, whose `SIMILARITY` comparison
against the unbound parameter is never true. The fuzzy `total` is the window
count `count(*) over()` read off the first returned row, `0` when the page
is empty. -/
def getProducts (st : Store) (c : CacheState) (sim : String → String → ℚ)
    (query : Option String) (offset limit : Nat) : GetProductsResult × CacheState :=
  let tc := getCountWithCache st c
  let total := tc.1
  let c1 := tc.2
  if (query.map jsTrim) == some "" then
    if offset != 0 || limit != defaultLimit then
      (.ok (getProductsFromDBWithoutQuery st offset limit) total, c1)
    else
      match c1.productList with
      | some l =>
          if l.isEmpty then (.ok (getProductsFromDBWithoutQuery st 0 defaultLimit) total, c1)
          else (.ok l total, c1)
      | none =>
          let fresh := getProductsFromDBWithoutQuery st 0 defaultLimit
          (.ok fresh total, { c1 with productList := some fresh })
  else
    let page := fuzzyPage st sim query offset limit
    (.ok page (if page.isEmpty then 0 else ((fuzzyMatches st sim query).length : Int)), c1)

/-! ## `createProduct` -/

/-- Modelled from the spec: `productSchema` (the file `@/schema/products` is
not among the sources; the spec's validator contract is "required title,
non-negative numeric price/quantity/size per variant"). Returns the names of
the offending fields, empty when the input is valid. -/
def productSchemaErrors (data : TProduct) : List String :=
  (if data.title = "" then ["title"] else []) ++
  data.variants.enum.foldr
    (fun iv acc =>
      (if iv.2.size < 0 then ["variants." ++ toString iv.1 ++ ".size"] else []) ++
      (if iv.2.price < 0 then ["variants." ++ toString iv.1 ++ ".price"] else []) ++
      (if iv.2.quantity < 0 then ["variants." ++ toString iv.1 ++ ".quantity"] else []) ++
      acc)
    []

/-- The product row inserted by `createProduct`'s transaction. -/
def newProductRow (data : TProduct) (nextPid now : Nat) : DBProduct :=
  { id := nextPid, title := data.title, description := data.description,
    image := data.imageId, createdAt := now, deletedAt := none }

/-- The variant rows inserted by `createProduct`'s transaction (fresh
consecutive ids, values coerced with `Number(...)`). -/
def newVariantRows (data : TProduct) (nextPid nextVid : Nat) : List DBVariant :=
  data.variants.enum.map fun iv =>
    { id := nextVid + iv.1, productId := nextPid, size := iv.2.size,
      price := iv.2.price, quantity := iv.2.quantity, deletedAt := none }

/-- `createProduct`'s transaction: insert the product row, then all variant
rows bound to its generated id. -/
def createProductTx (st : Store) (data : TProduct) (nextPid nextVid now : Nat) : Store :=
  { st with
    products := st.products ++ [newProductRow data nextPid now],
    variants := st.variants ++ newVariantRows data nextPid nextVid }

/-- Failure injection for the cache layer (`@/lib/cache/products` is not
among the sources): a `true` flag means the corresponding cache call throws.
The source wraps every cache call in the same `try` block as the
transaction, so a throw is observed through the shared `catch`. -/
structure CacheBehavior where
  listSetFails : Bool
  countGetFails : Bool
  countSetFails : Bool
  countIncrFails : Bool
deriving Repr, DecidableEq

/-- The all-succeed cache behaviour. -/
def cacheOk : CacheBehavior :=
  { listSetFails := false, countGetFails := false,
    countSetFails := false, countIncrFails := false }

/-- The count-cache maintenance after `createProduct`'s commit:
`get`, then on a falsy (missing or zero) value recompute-and-`set`, else
`incr`. `none` means the step threw. -/
def countCacheOnCreate (st1 : Store) (c1 : CacheState) (beh : CacheBehavior) :
    Option CacheState :=
  match c1.countVal with
  | some t =>
      if t == 0 then
        if beh.countSetFails then none
        else some { c1 with countVal := some (getProductsCountFromDB st1 : Int) }
      else
        if beh.countIncrFails then none
        else some { c1 with countVal := some (t + 1) }
  | none =>
      if beh.countSetFails then none
      else some { c1 with countVal := some (getProductsCountFromDB st1 : Int) }

/-- Result of `createProduct` as seen by the caller. -/
inductive CreateProductResult where
  | ok (product : DBProduct) (variantRows : List DBVariant) (total : Int)
  | err (msg : String)
deriving Repr, DecidableEq

/-- `createProduct(data)`: validate (a failed parse throws and is converted
by the shared `catch` into the generic `"Error creating product"` response),
run the insert transaction, then refresh the list cache and maintain the
count cache; any cache throw after the commit is caught by the same `catch`,
leaving the committed rows in the store but answering with the generic
error. On full success the response carries the composed product and the
re-read cached total. -/
def createProduct (st : Store) (c : CacheState) (beh : CacheBehavior) (data : TProduct)
    (nextPid nextVid now : Nat) : CreateProductResult × Store × CacheState :=
  if !(productSchemaErrors data).isEmpty then
    (.err "Error creating product", st, c)
  else
    let st1 := createProductTx st data nextPid nextVid now
    if beh.listSetFails then (.err "Error creating product", st1, c)
    else
      let c1 := { c with productList := some (getProductsFromDBWithoutQuery st1 0 defaultLimit) }
      if beh.countGetFails then (.err "Error creating product", st1, c1)
      else
        match countCacheOnCreate st1 c1 beh with
        | none => (.err "Error creating product", st1, c1)
        | some c2 =>
            (.ok (newProductRow data nextPid now) (newVariantRows data nextPid nextVid)
              (c2.countVal.getD 0), st1, c2)

/-! ## `getProductVariants` (per-variant sales aggregation) -/

/-- SQL `SUM` over the purchase-item values grouped under one variant after
the left join: `NULL` (here `none`) when the variant matched no purchase
item, the sum otherwise. -/
def sqlSumInt (l : List Int) : Option Int :=
  if l.isEmpty then none else some l.sum

/-- The purchase items referencing a variant (the left-join partners). -/
def itemsOfVariant (items : List PurchaseItem) (vid : Nat) : List PurchaseItem :=
  items.filter fun it => it.variantId == vid

/-- A result row of `getProductVariants`. -/
structure SaleRow where
  id : Nat
  size : Int
  stock : Int
  price : Int
  sold : Option Int
  revenue : Option Int
deriving Repr, DecidableEq

/-- `ORDER BY variants.size ASC` as a relation. -/
def sizeAscend (a b : DBVariant) : Prop := a.size ≤ b.size

instance : DecidableRel sizeAscend := fun a b => inferInstanceAs (Decidable (a.size ≤ b.size))

instance : IsTotal DBVariant sizeAscend := ⟨fun a b => le_total a.size b.size⟩

instance : IsTrans DBVariant sizeAscend := ⟨fun _ _ _ h h' => le_trans h h'⟩

/-- The aggregation row one variant contributes: stock and price from the
variant, `sold = SUM(quantity)` and `revenue = SUM(quantity * price)` over
its purchase items (`NULL` when there are none). -/
def saleRowOf (st : Store) (v : DBVariant) : SaleRow :=
  let its := itemsOfVariant st.purchaseItems v.id
  { id := v.id, size := v.size, stock := v.quantity, price := v.price,
    sold := sqlSumInt (its.map fun it => it.quantity),
    revenue := sqlSumInt (its.map fun it => it.quantity * it.price) }

/-- `getProductVariants(id)`: every variant row of the product — the query
filters only on `variants.productId` (NO `deletedAt` condition), left-joins
purchase items, groups by variant and orders by ascending size. -/
def getProductVariants (st : Store) (id : Nat) : List SaleRow :=
  ((st.variants.filter fun v => v.productId == id).insertionSort sizeAscend).map
    (saleRowOf st)

/-! ## Spec-side predicates and sample data -/

/-- The classification property claimed of the reconciler, for a previous
variant set `prev` and a desired list `cur`: the three lists are
characterised by size, an unchanged match lands in none of them, they are
pairwise disjoint by size, and added, updated and unchanged cover `cur`. -/
def ReconcilerClassifies (prev : List DBVariant) (cur : List TVariant) : Prop :=
  (∀ v, v ∈ removedVariants prev cur ↔ v ∈ prev ∧ ∀ d ∈ cur, d.size ≠ v.size) ∧
  (∀ d, d ∈ addedVariants prev cur ↔ d ∈ cur ∧ ∀ v ∈ prev, v.size ≠ d.size) ∧
  (∀ d, d ∈ updatedVariants prev cur ↔
    d ∈ cur ∧ ∃ v ∈ prev, v.size = d.size ∧
      (v.price ≠ d.price ∨ v.quantity ≠ d.quantity)) ∧
  (∀ d v, d ∈ cur → v ∈ prev → v.size = d.size → v.price = d.price →
    v.quantity = d.quantity →
    d ∉ addedVariants prev cur ∧ d ∉ updatedVariants prev cur ∧
      v ∉ removedVariants prev cur) ∧
  (∀ a ∈ addedVariants prev cur, ∀ r ∈ removedVariants prev cur, a.size ≠ r.size) ∧
  (∀ a ∈ addedVariants prev cur, ∀ u ∈ updatedVariants prev cur, a.size ≠ u.size) ∧
  (∀ u ∈ updatedVariants prev cur, ∀ r ∈ removedVariants prev cur, u.size ≠ r.size) ∧
  (∀ d ∈ cur, d ∈ addedVariants prev cur ∨ d ∈ updatedVariants prev cur ∨
    ∃ v ∈ prev, v.size = d.size ∧ v.price = d.price ∧ v.quantity = d.quantity)

/-- A concrete similarity function used to instantiate the uninterpreted
`SIMILARITY` parameter in witnesses and counterexamples: scores depend on
the title only. -/
def simSample (t : String) (q : String) : ℚ :=
  if t = "A" then mkRat 31 100
  else if t = "B" then mkRat 3 10
  else if t = "C" then mkRat 1 4
  else if t = "D" then mkRat 9 10
  else 0

/-- The cumulative effect of the whole UPDATE batch for `updatedVariants` on
one row (per-row view of `applyUpdatedVariants`). -/
def updFold (pid : Nat) (updated : List TVariant) (v : DBVariant) : DBVariant :=
  updated.foldl (fun w u => updStep pid u w) v

/-- The cumulative effect of the whole UPDATE batch for `removedVariants` on
one row (per-row view of `applyRemovedVariants`). -/
def remFold (pid : Nat) (now : Nat) (removed : List DBVariant) (v : DBVariant) : DBVariant :=
  removed.foldl (fun w r => remStep pid now r w) v

/-- Sample store for the fuzzy-search witness: three active products titled
"A", "B", "C" (scoring 0.31, 0.30, 0.25 under `simSample`), each with one
active variant. -/
def stC7 : Store :=
  { products := [⟨1, "A", "d", "i", 0, none⟩, ⟨2, "B", "d", "i", 0, none⟩,
      ⟨3, "C", "d", "i", 0, none⟩],
    variants := [⟨1, 1, 5, 10, 1, none⟩, ⟨2, 2, 5, 10, 1, none⟩,
      ⟨3, 3, 5, 10, 1, none⟩],
    purchaseItems := [] }

/-- Sample store for the sales-aggregation claims: product 1 with one active
and one soft-deleted variant, no purchase items. -/
def stC8 : Store :=
  { products := [⟨1, "p", "d", "i", 0, none⟩],
    variants := [⟨1, 1, 5, 10, 1, none⟩, ⟨2, 1, 7, 20, 2, some 3⟩],
    purchaseItems := [] }

/-- Sample store for the count-versus-listing claim: product 1 active with an
active variant, product 2 active but with its only variant soft-deleted. -/
def stC10 : Store :=
  { products := [⟨1, "p", "d", "i", 0, none⟩, ⟨2, "q", "d", "i", 0, none⟩],
    variants := [⟨1, 1, 5, 10, 1, none⟩, ⟨2, 2, 5, 10, 1, some 3⟩],
    purchaseItems := [] }

/-! ## General list lemmas -/

theorem find?_eq_some_of_unique {α : Type} {p : α → Bool} {l : List α} {a : α}
    (ha : a ∈ l) (hpa : p a = true) (huniq : ∀ b ∈ l, p b = true → b = a) :
    l.find? p = some a := by
  induction l with
  | nil => cases ha
  | cons x xs ih =>
      by_cases hx : p x = true
      · have hxa : x = a := huniq x (List.mem_cons_self x xs) hx
        subst hxa
        exact List.find?_cons_of_pos xs hx
      · rw [List.find?_cons_of_neg xs hx]
        have hax : a ≠ x := fun h => hx (h ▸ hpa)
        have ha' : a ∈ xs := by
          rcases List.mem_cons.mp ha with h | h
          · exact absurd h hax
          · exact h
        exact ih ha' fun b hb => huniq b (List.mem_cons_of_mem x hb)

theorem pairwise_key_eq {α β : Type} {f : α → β} {l : List α}
    (h : l.Pairwise fun a b => f a ≠ f b) {a b : α}
    (ha : a ∈ l) (hb : b ∈ l) (hf : f a = f b) : a = b := by
  induction l with
  | nil => cases ha
  | cons x xs ih =>
      rcases List.pairwise_cons.mp h with ⟨hx, hxs⟩
      rcases List.mem_cons.mp ha with rfl | ha'
      · rcases List.mem_cons.mp hb with rfl | hb'
        · rfl
        · exact absurd hf (hx b hb')
      · rcases List.mem_cons.mp hb with rfl | hb'
        · exact absurd hf.symm (hx a ha')
        · exact ih hxs ha' hb'

/-! ## Reconciler lemmas -/

theorem mem_removedVariants {prev : List DBVariant} {cur : List TVariant}
    (v : DBVariant) :
    v ∈ removedVariants prev cur ↔ v ∈ prev ∧ ∀ d ∈ cur, d.size ≠ v.size := by
  simp [removedVariants, List.mem_filter, List.any_eq_true]

theorem mem_addedVariants {prev : List DBVariant} {cur : List TVariant}
    (d : TVariant) :
    d ∈ addedVariants prev cur ↔ d ∈ cur ∧ ∀ v ∈ prev, v.size ≠ d.size := by
  simp [addedVariants, List.mem_filter, List.any_eq_true]

theorem mem_updatedVariants {prev : List DBVariant} {cur : List TVariant}
    (hprev : prev.Pairwise fun a b => a.size ≠ b.size) (d : TVariant) :
    d ∈ updatedVariants prev cur ↔
      d ∈ cur ∧ ∃ v ∈ prev, v.size = d.size ∧
        (v.price ≠ d.price ∨ v.quantity ≠ d.quantity) := by
  unfold updatedVariants
  rw [List.mem_filter]
  constructor
  · rintro ⟨hd, hb⟩
    refine ⟨hd, ?_⟩
    rcases hfind : prev.find? (fun pv => pv.size == d.size) with _ | v
    · rw [hfind] at hb; cases hb
    · rw [hfind] at hb
      refine ⟨v, List.mem_of_find?_eq_some hfind, ?_, ?_⟩
      · have := List.find?_some hfind
        exact beq_iff_eq.mp this
      · have hb' : v.price ≠ d.price ∨ v.quantity ≠ d.quantity := by
          simpa using hb
        exact hb'
  · rintro ⟨hd, v, hv, hsize, hdiff⟩
    refine ⟨hd, ?_⟩
    have hfind : prev.find? (fun pv => pv.size == d.size) = some v := by
      refine find?_eq_some_of_unique hv (beq_iff_eq.mpr hsize) ?_
      intro b hb hbs
      exact pairwise_key_eq hprev hb hv ((beq_iff_eq.mp hbs).trans hsize.symm)
    rw [hfind]
    simpa using hdiff

/-- Claim C1: for every previous variant set and desired list, the
reconciliation classifies each element exactly once by size — removed,
added and updated are characterised as stated, unchanged matches fall in
none of the three lists, the lists are pairwise disjoint by size, and
added ∪ updated ∪ unchanged covers the desired list. Hypothesis: the
persisted variants carry pairwise distinct sizes (the store invariant,
needed because `find` returns the first size match). -/
theorem C1_reconciler_classification
    (prev : List DBVariant) (cur : List TVariant)
    (hprev : prev.Pairwise fun a b => a.size ≠ b.size) :
    ReconcilerClassifies prev cur := by
  refine ⟨mem_removedVariants, mem_addedVariants, mem_updatedVariants hprev,
    ?_, ?_, ?_, ?_, ?_⟩
  · intro d v hd hv hs hp hq
    refine ⟨?_, ?_, ?_⟩
    · intro hmem
      rcases (mem_addedVariants d).mp hmem with ⟨_, hnone⟩
      exact hnone v hv hs
    · intro hmem
      rcases (mem_updatedVariants hprev d).mp hmem with ⟨_, w, hw, hws, hdiff⟩
      have hwv : w = v := pairwise_key_eq hprev hw hv (hws.trans hs.symm)
      subst hwv
      rcases hdiff with h | h
      · exact h hp
      · exact h hq
    · intro hmem
      rcases (mem_removedVariants v).mp hmem with ⟨_, hnone⟩
      exact hnone d hd hs.symm
  · intro a ha r hr hsz
    rcases (mem_addedVariants a).mp ha with ⟨_, hnone⟩
    exact hnone r ((mem_removedVariants r).mp hr).1 hsz.symm
  · intro a ha u hu hsz
    rcases (mem_addedVariants a).mp ha with ⟨_, hnone⟩
    rcases (mem_updatedVariants hprev u).mp hu with ⟨_, w, hw, hws, _⟩
    exact hnone w hw (hws.trans hsz.symm)
  · intro u hu r hr hsz
    rcases (mem_removedVariants r).mp hr with ⟨_, hnone⟩
    exact hnone u ((mem_updatedVariants hprev u).mp hu).1 hsz
  · intro d hd
    by_cases hex : ∃ v ∈ prev, v.size = d.size
    · rcases hex with ⟨v, hv, hvs⟩
      by_cases hpq : v.price = d.price ∧ v.quantity = d.quantity
      · exact Or.inr (Or.inr ⟨v, hv, hvs, hpq.1, hpq.2⟩)
      · refine Or.inr (Or.inl ?_)
        rw [mem_updatedVariants hprev]
        refine ⟨hd, v, hv, hvs, ?_⟩
        by_cases hp : v.price = d.price
        · exact Or.inr fun hq => hpq ⟨hp, hq⟩
        · exact Or.inl hp
    · refine Or.inl ?_
      rw [mem_addedVariants]
      exact ⟨hd, fun v hv hvs => hex ⟨v, hv, hvs⟩⟩

/-- Witness for C1: the classification property holds at a concrete
previous/desired pair (a kept-but-changed size, an added size, a removed
size). -/
theorem C1_reconciler_classification_witness :
    ([⟨1, 7, 10, 100, 5, none⟩, ⟨2, 7, 12, 200, 3, some 4⟩] :
        List DBVariant).Pairwise (fun a b => a.size ≠ b.size) ∧
    ReconcilerClassifies
      [⟨1, 7, 10, 100, 5, none⟩, ⟨2, 7, 12, 200, 3, some 4⟩]
      [⟨10, 150, 5⟩, ⟨14, 99, 1⟩] :=
  ⟨by decide, C1_reconciler_classification _ _ (by decide)⟩

/-- Counterexample to claim C3: re-deleting an already-deleted product does
not leave its deletion timestamp unchanged — a second `deleteProduct` on a
later date overwrites the stored timestamp with that date. Here the product
was soft-deleted at date 5 and the second call at date 7 rewrites it to 7. -/
theorem C3_redelete_refreshes_timestamp :
    (deleteProduct
        { products := [⟨1, "p", "d", "i", 0, some 5⟩], variants := [],
          purchaseItems := [] } 1 7).products.map DBProduct.deletedAt = [some 7] ∧
    ({ products := [⟨1, "p", "d", "i", 0, some 5⟩], variants := [],
        purchaseItems := [] } : Store).products.map DBProduct.deletedAt = [some 5] := by
  constructor
  · rfl
  · rfl

/-- Claim C3 (amended): `deleteProduct` unconditionally overwrites the
deletion timestamp of the matching rows with the current date, so re-deleting
refreshes the timestamp to the date of the second call; the operation is
idempotent at the store only within one date — repeating it with the same
current date leaves the store unchanged. -/
theorem C3_delete_idempotent_same_date (st : Store) (id : Nat) (now : Nat) :
    deleteProduct (deleteProduct st id now) id now = deleteProduct st id now ∧
    ∀ p ∈ (deleteProduct st id now).products, p.id = id → p.deletedAt = some now := by
  constructor
  · unfold deleteProduct
    simp only [List.map_map]
    congr 1
    apply List.map_congr_left
    intro p _
    by_cases h : p.id == id
    · simp [Function.comp, h]
    · simp [Function.comp, h]
  · intro p hp hpid
    unfold deleteProduct at hp
    simp only [List.mem_map] at hp
    rcases hp with ⟨q, hq, rfl⟩
    by_cases h : q.id = id
    · simp [h]
    · rw [if_neg (by simpa using h)] at hpid
      exact absurd hpid h

/-- Witness for the amended C3 at a concrete already-deleted product. -/
theorem C3_delete_idempotent_same_date_witness :
    deleteProduct
        (deleteProduct
          { products := [⟨1, "p", "d", "i", 0, some 5⟩], variants := [],
            purchaseItems := [] } 1 7) 1 7 =
      deleteProduct
        { products := [⟨1, "p", "d", "i", 0, some 5⟩], variants := [],
          purchaseItems := [] } 1 7 ∧
    ∀ p ∈ (deleteProduct
        { products := [⟨1, "p", "d", "i", 0, some 5⟩], variants := [],
          purchaseItems := [] } 1 7).products, p.id = 1 → p.deletedAt = some 7 :=
  C3_delete_idempotent_same_date
    { products := [⟨1, "p", "d", "i", 0, some 5⟩], variants := [], purchaseItems := [] }
    1 7

/-! ## Per-row views of the update batches -/

theorem applyUpdatedVariants_eq_map (vars : List DBVariant) (pid : Nat)
    (updated : List TVariant) :
    applyUpdatedVariants vars pid updated = vars.map (updFold pid updated) := by
  induction updated generalizing vars with
  | nil =>
      symm
      exact (List.map_congr_left fun v _ => rfl).trans (List.map_id vars)
  | cons u us ih =>
      have h1 : applyUpdatedVariants vars pid (u :: us) =
          applyUpdatedVariants (vars.map (updStep pid u)) pid us := rfl
      rw [h1, ih, List.map_map]
      rfl

theorem applyRemovedVariants_eq_map (vars : List DBVariant) (pid : Nat)
    (removed : List DBVariant) (now : Nat) :
    applyRemovedVariants vars pid removed now = vars.map (remFold pid now removed) := by
  induction removed generalizing vars with
  | nil =>
      symm
      exact (List.map_congr_left fun v _ => rfl).trans (List.map_id vars)
  | cons r rs ih =>
      have h1 : applyRemovedVariants vars pid (r :: rs) now =
          applyRemovedVariants (vars.map (remStep pid now r)) pid rs now := rfl
      rw [h1, ih, List.map_map]
      rfl

theorem updateProductTx_variants_view (st : Store) (id : Nat) (data : PartialTProduct)
    (now nextId : Nat) :
    (updateProductTx st id data now nextId).variants =
      (st.variants ++
          addedRows id nextId
            (addedVariants (st.variants.filter fun v => v.productId == id)
              (data.variants.getD []))).map
        fun v =>
          remFold id now
            (removedVariants (st.variants.filter fun w => w.productId == id)
              (data.variants.getD []))
            (updFold id
              (updatedVariants (st.variants.filter fun w => w.productId == id)
                (data.variants.getD [])) v) := by
  have h1 : (updateProductTx st id data now nextId).variants =
      applyRemovedVariants
        (applyUpdatedVariants
          (insertAddedVariants st.variants id nextId
            (addedVariants (st.variants.filter fun v => v.productId == id)
              (data.variants.getD [])))
          id
          (updatedVariants (st.variants.filter fun v => v.productId == id)
            (data.variants.getD [])))
        id
        (removedVariants (st.variants.filter fun v => v.productId == id)
          (data.variants.getD []))
        now := rfl
  rw [h1, applyUpdatedVariants_eq_map, applyRemovedVariants_eq_map, List.map_map]
  rfl

theorem updStep_id (pid : Nat) (u : TVariant) (v : DBVariant) :
    (updStep pid u v).id = v.id := by
  unfold updStep
  by_cases h : (v.size == u.size && v.productId == pid) = true
  · rw [if_pos h]
  · rw [if_neg h]

theorem remStep_id (pid now : Nat) (r : DBVariant) (v : DBVariant) :
    (remStep pid now r v).id = v.id := by
  unfold remStep
  by_cases h : (v.size == r.size && v.productId == pid) = true
  · rw [if_pos h]
  · rw [if_neg h]

theorem updFold_id (pid : Nat) (updated : List TVariant) (v : DBVariant) :
    (updFold pid updated v).id = v.id := by
  induction updated generalizing v with
  | nil => rfl
  | cons u us ih =>
      have h1 : updFold pid (u :: us) v = updFold pid us (updStep pid u v) := rfl
      rw [h1, ih, updStep_id]

theorem remFold_id (pid now : Nat) (removed : List DBVariant) (v : DBVariant) :
    (remFold pid now removed v).id = v.id := by
  induction removed generalizing v with
  | nil => rfl
  | cons r rs ih =>
      have h1 : remFold pid now (r :: rs) v = remFold pid now rs (remStep pid now r v) := rfl
      rw [h1, ih, remStep_id]

theorem updFold_of_no_size {pid : Nat} {updated : List TVariant} {v : DBVariant}
    (h : ∀ u ∈ updated, u.size ≠ v.size) : updFold pid updated v = v := by
  induction updated with
  | nil => rfl
  | cons u us ih =>
      have hc : (v.size == u.size) = false :=
        beq_eq_false_iff_ne.mpr fun hh => h u (List.mem_cons_self u us) hh.symm
      have hstep : updStep pid u v = v := by
        unfold updStep
        simp [hc]
      have h1 : updFold pid (u :: us) v = updFold pid us (updStep pid u v) := rfl
      rw [h1, hstep]
      exact ih fun x hx => h x (List.mem_cons_of_mem u hx)

theorem remFold_of_no_size {pid now : Nat} {removed : List DBVariant} {v : DBVariant}
    (h : ∀ r ∈ removed, r.size ≠ v.size) : remFold pid now removed v = v := by
  induction removed with
  | nil => rfl
  | cons r rs ih =>
      have hc : (v.size == r.size) = false :=
        beq_eq_false_iff_ne.mpr fun hh => h r (List.mem_cons_self r rs) hh.symm
      have hstep : remStep pid now r v = v := by
        unfold remStep
        simp [hc]
      have h1 : remFold pid now (r :: rs) v = remFold pid now rs (remStep pid now r v) := rfl
      rw [h1, hstep]
      exact ih fun x hx => h x (List.mem_cons_of_mem r hx)

theorem updFold_of_mem {pid : Nat} {updated : List TVariant} {v : DBVariant} {d : TVariant}
    (hvp : v.productId = pid) (hd : d ∈ updated) (hsize : d.size = v.size)
    (hdist : updated.Pairwise fun a b => a.size ≠ b.size) :
    updFold pid updated v =
      { v with
        size := d.size, price := d.price, quantity := d.quantity,
        deletedAt := none } := by
  induction updated with
  | nil => cases hd
  | cons u us ih =>
      rcases List.pairwise_cons.mp hdist with ⟨hu, hus⟩
      have h1 : updFold pid (u :: us) v = updFold pid us (updStep pid u v) := rfl
      rcases List.mem_cons.mp hd with rfl | hd'
      · have hstep : updStep pid d v =
            { v with
              size := d.size, price := d.price, quantity := d.quantity,
              deletedAt := none } := by
          unfold updStep
          rw [if_pos]
          rw [Bool.and_eq_true]
          exact ⟨beq_iff_eq.mpr hsize.symm, beq_iff_eq.mpr hvp⟩
        rw [h1, hstep]
        apply updFold_of_no_size
        intro x hx hxs
        exact hu x hx hxs.symm
      · have hne : (v.size == u.size) = false := by
          refine beq_eq_false_iff_ne.mpr fun hvu => hu d hd' ?_
          exact (hsize.trans hvu).symm
        have hstep : updStep pid u v = v := by
          unfold updStep
          simp [hne]
        rw [h1, hstep]
        exact ih hd' hus

theorem filter_map_id_preserved {f : DBVariant → DBVariant}
    (hf : ∀ w, (f w).id = w.id) (l : List DBVariant) (k : Nat) :
    (l.map f).filter (fun w => w.id == k) = (l.filter fun w => w.id == k).map f := by
  induction l with
  | nil => rfl
  | cons x xs ih =>
      have hfx : ((f x).id == k) = (x.id == k) := by rw [hf x]
      cases hxk : (x.id == k) with
      | true => simp [List.filter_cons, hfx, hxk, ih]
      | false => simp [List.filter_cons, hfx, hxk, ih]

theorem filter_id_eq_singleton {l : List DBVariant}
    (h : l.Pairwise fun a b => a.id ≠ b.id) {v : DBVariant} (hv : v ∈ l) :
    l.filter (fun w => w.id == v.id) = [v] := by
  induction l with
  | nil => cases hv
  | cons x xs ih =>
      rcases List.pairwise_cons.mp h with ⟨hx, hxs⟩
      rcases List.mem_cons.mp hv with rfl | hv'
      · have htail : xs.filter (fun w => w.id == v.id) = [] := by
          apply List.filter_eq_nil_iff.mpr
          intro w hw
          simp only [Bool.not_eq_true]
          exact beq_eq_false_iff_ne.mpr fun hh => hx w hw hh.symm
        simp [List.filter_cons, htail]
      · have hxv : (x.id == v.id) = false := beq_eq_false_iff_ne.mpr (hx v hv')
        simp [List.filter_cons, hxv, ih hxs hv']

theorem addedRows_filter_fresh {pid nextId : Nat} {added : List TVariant} {k : Nat}
    (hk : k < nextId) :
    (addedRows pid nextId added).filter (fun w => w.id == k) = [] := by
  apply List.filter_eq_nil_iff.mpr
  intro w hw
  rcases List.mem_map.mp hw with ⟨ia, _, rfl⟩
  simp only [Bool.not_eq_true]
  exact beq_eq_false_iff_ne.mpr (by omega)

/-- Claim C2: submitting a variant whose size matches a soft-deleted
persisted variant, with a different price or quantity, classifies it as
updated; provided the product patch object is non-empty (otherwise the
source's `UPDATE products SET {}` throws and the transaction rolls back),
the transaction commits, overwrites that row's price and quantity with the
submitted values and clears its deletion timestamp. Hypotheses are the
store invariants: the product's variants have pairwise distinct sizes, the
submitted list has pairwise distinct sizes, variant ids are unique, and
freshly generated ids are new. -/
theorem C2_update_undeletes_changed_variant
    (st : Store) (id : Nat) (data : PartialTProduct) (now nextId : Nat)
    (v : DBVariant) (d : TVariant) (t : Nat)
    (hv : v ∈ st.variants) (hvp : v.productId = id) (hvd : v.deletedAt = some t)
    (hd : d ∈ data.variants.getD []) (hds : d.size = v.size)
    (hne : d.price ≠ v.price ∨ d.quantity ≠ v.quantity)
    (hprev : (st.variants.filter fun w => w.productId == id).Pairwise
      fun a b => a.size ≠ b.size)
    (hcur : (data.variants.getD []).Pairwise fun a b => a.size ≠ b.size)
    (hids : st.variants.Pairwise fun a b => a.id ≠ b.id)
    (hfresh : ∀ w ∈ st.variants, w.id < nextId)
    (hpatch : hasProductPatch data = true) :
    (updateProduct st id data now nextId).1 =
      UpdateProductResult.ok "Product updated successfully" ∧
    (updateProduct st id data now nextId).2.variants.filter (fun w => w.id == v.id) =
      [{ v with
          size := d.size, price := d.price, quantity := d.quantity,
          deletedAt := none }] := by
  have hup : updateProduct st id data now nextId =
      (UpdateProductResult.ok "Product updated successfully",
        updateProductTx st id data now nextId) := by
    unfold updateProduct
    rw [if_pos hpatch]
  refine ⟨by rw [hup], ?_⟩
  rw [hup]
  have hP : v ∈ st.variants.filter (fun w => w.productId == id) :=
    List.mem_filter.mpr ⟨hv, beq_iff_eq.mpr hvp⟩
  have hdUpd : d ∈ updatedVariants
      (st.variants.filter fun w => w.productId == id) (data.variants.getD []) := by
    rw [mem_updatedVariants hprev]
    exact ⟨hd, v, hP, hds.symm, hne.imp Ne.symm Ne.symm⟩
  have hUdist : (updatedVariants
      (st.variants.filter fun w => w.productId == id)
      (data.variants.getD [])).Pairwise fun a b => a.size ≠ b.size :=
    List.Pairwise.filter _ hcur
  have hrem : ∀ r ∈ removedVariants
      (st.variants.filter fun w => w.productId == id) (data.variants.getD []),
      r.size ≠ d.size := by
    intro r hr
    rcases (mem_removedVariants r).mp hr with ⟨_, hnone⟩
    exact fun hrs => hnone d hd hrs.symm
  rw [updateProductTx_variants_view,
    filter_map_id_preserved (fun w => by rw [remFold_id, updFold_id]) _ v.id,
    List.filter_append,
    filter_id_eq_singleton hids hv,
    addedRows_filter_fresh (hfresh v hv)]
  simp only [List.append_nil, List.map_cons, List.map_nil]
  congr 1
  rw [updFold_of_mem hvp hdUpd hds hUdist]
  exact remFold_of_no_size fun r hr => hrem r hr

/-- Witness for C2: a product with one soft-deleted size-10 variant, updated
(with a truthy title patch, so the products UPDATE is valid) with size 10 at
a new price; the call succeeds and the row reappears with the new price and
a cleared deletion timestamp. -/
theorem C2_update_undeletes_changed_variant_witness :
    (⟨1, 1, 10, 100, 5, some 3⟩ : DBVariant) ∈
      ({ products := [⟨1, "p", "d", "i", 0, none⟩],
         variants := [⟨1, 1, 10, 100, 5, some 3⟩], purchaseItems := [] } : Store).variants ∧
    (⟨10, 150, 5⟩ : TVariant) ∈
      (({ title := some "p2", description := none, imageId := none,
          variants := some [⟨10, 150, 5⟩] } : PartialTProduct).variants.getD []) ∧
    ((150 : Int) ≠ 100 ∨ (5 : Int) ≠ 5) ∧
    hasProductPatch
      { title := some "p2", description := none, imageId := none,
        variants := some [⟨10, 150, 5⟩] } = true ∧
    ((updateProduct
        { products := [⟨1, "p", "d", "i", 0, none⟩],
          variants := [⟨1, 1, 10, 100, 5, some 3⟩], purchaseItems := [] }
        1
        { title := some "p2", description := none, imageId := none,
          variants := some [⟨10, 150, 5⟩] }
        9 2).1 = UpdateProductResult.ok "Product updated successfully" ∧
    (updateProduct
        { products := [⟨1, "p", "d", "i", 0, none⟩],
          variants := [⟨1, 1, 10, 100, 5, some 3⟩], purchaseItems := [] }
        1
        { title := some "p2", description := none, imageId := none,
          variants := some [⟨10, 150, 5⟩] }
        9 2).2.variants.filter (fun w => w.id == 1) =
      [⟨1, 1, 10, 150, 5, none⟩]) :=
  ⟨by decide, by decide, by decide, by decide,
    C2_update_undeletes_changed_variant
      { products := [⟨1, "p", "d", "i", 0, none⟩],
        variants := [⟨1, 1, 10, 100, 5, some 3⟩], purchaseItems := [] }
      1
      { title := some "p2", description := none, imageId := none,
        variants := some [⟨10, 150, 5⟩] }
      9 2 ⟨1, 1, 10, 100, 5, some 3⟩ ⟨10, 150, 5⟩ 3
      (by decide) (by decide) (by decide) (by decide) (by decide)
      (by decide) (by decide) (by decide) (by decide) (by decide)
      (by decide)⟩

/-- Claim C9: submitting a variant whose size matches a soft-deleted
persisted variant with the SAME price and quantity classifies it in none of
the three lists; provided the product patch object is non-empty (so the
transaction commits rather than aborting on the source's
`UPDATE products SET {}`), the update completes successfully and no UPDATE
touches the row: it stays byte-identical (in particular its deletion
timestamp remains set and the variant stays absent from active listings). -/
theorem C9_unchanged_match_stays_soft_deleted
    (st : Store) (id : Nat) (data : PartialTProduct) (now nextId : Nat)
    (v : DBVariant) (d : TVariant) (t : Nat)
    (hv : v ∈ st.variants) (hvp : v.productId = id) (hvd : v.deletedAt = some t)
    (hd : d ∈ data.variants.getD []) (hds : d.size = v.size)
    (hp : d.price = v.price) (hq : d.quantity = v.quantity)
    (hprev : (st.variants.filter fun w => w.productId == id).Pairwise
      fun a b => a.size ≠ b.size)
    (hcur : (data.variants.getD []).Pairwise fun a b => a.size ≠ b.size)
    (hids : st.variants.Pairwise fun a b => a.id ≠ b.id)
    (hfresh : ∀ w ∈ st.variants, w.id < nextId)
    (hpatch : hasProductPatch data = true) :
    d ∉ addedVariants (st.variants.filter fun w => w.productId == id)
        (data.variants.getD []) ∧
    d ∉ updatedVariants (st.variants.filter fun w => w.productId == id)
        (data.variants.getD []) ∧
    v ∉ removedVariants (st.variants.filter fun w => w.productId == id)
        (data.variants.getD []) ∧
    (updateProduct st id data now nextId).1 =
      UpdateProductResult.ok "Product updated successfully" ∧
    (updateProduct st id data now nextId).2.variants.filter (fun w => w.id == v.id) =
      [v] := by
  have hup : updateProduct st id data now nextId =
      (UpdateProductResult.ok "Product updated successfully",
        updateProductTx st id data now nextId) := by
    unfold updateProduct
    rw [if_pos hpatch]
  have hP : v ∈ st.variants.filter (fun w => w.productId == id) :=
    List.mem_filter.mpr ⟨hv, beq_iff_eq.mpr hvp⟩
  have hUskip : ∀ u ∈ updatedVariants
      (st.variants.filter fun w => w.productId == id) (data.variants.getD []),
      u.size ≠ v.size := by
    intro u hu hus
    rcases (mem_updatedVariants hprev u).mp hu with ⟨hucur, w, hw, hws, hdiff⟩
    have hwv : w = v := pairwise_key_eq hprev hw hP (hws.trans hus)
    subst hwv
    have hud : u = d := pairwise_key_eq hcur hucur hd (hus.trans hds.symm)
    subst hud
    rcases hdiff with h | h
    · exact h hp.symm
    · exact h hq.symm
  have hRskip : ∀ r ∈ removedVariants
      (st.variants.filter fun w => w.productId == id) (data.variants.getD []),
      r.size ≠ v.size := by
    intro r hr hrs
    rcases (mem_removedVariants r).mp hr with ⟨_, hnone⟩
    exact hnone d hd (hds.trans hrs.symm)
  refine ⟨?_, ?_, ?_, by rw [hup], ?_⟩
  · intro hmem
    rcases (mem_addedVariants d).mp hmem with ⟨_, hnone⟩
    exact hnone v hP hds.symm
  · intro hmem
    exact hUskip d hmem hds
  · intro hmem
    exact hRskip v hmem rfl
  · rw [hup, updateProductTx_variants_view,
      filter_map_id_preserved (fun w => by rw [remFold_id, updFold_id]) _ v.id,
      List.filter_append,
      filter_id_eq_singleton hids hv,
      addedRows_filter_fresh (hfresh v hv)]
    simp only [List.append_nil, List.map_cons, List.map_nil]
    congr 1
    rw [updFold_of_no_size hUskip]
    exact remFold_of_no_size hRskip

/-- Witness for C9: a soft-deleted size-10 variant resubmitted with identical
price and quantity (alongside a truthy title patch, so the transaction
commits) stays soft-deleted, untouched by the successful update. -/
theorem C9_unchanged_match_stays_soft_deleted_witness :
    (⟨1, 1, 10, 100, 5, some 3⟩ : DBVariant) ∈
      ({ products := [⟨1, "p", "d", "i", 0, none⟩],
         variants := [⟨1, 1, 10, 100, 5, some 3⟩], purchaseItems := [] } : Store).variants ∧
    (⟨10, 100, 5⟩ : TVariant) ∈
      (({ title := some "p2", description := none, imageId := none,
          variants := some [⟨10, 100, 5⟩] } : PartialTProduct).variants.getD []) ∧
    hasProductPatch
      { title := some "p2", description := none, imageId := none,
        variants := some [⟨10, 100, 5⟩] } = true ∧
    ((updateProduct
        { products := [⟨1, "p", "d", "i", 0, none⟩],
          variants := [⟨1, 1, 10, 100, 5, some 3⟩], purchaseItems := [] }
        1
        { title := some "p2", description := none, imageId := none,
          variants := some [⟨10, 100, 5⟩] }
        9 2).1 = UpdateProductResult.ok "Product updated successfully" ∧
    (updateProduct
        { products := [⟨1, "p", "d", "i", 0, none⟩],
          variants := [⟨1, 1, 10, 100, 5, some 3⟩], purchaseItems := [] }
        1
        { title := some "p2", description := none, imageId := none,
          variants := some [⟨10, 100, 5⟩] }
        9 2).2.variants.filter (fun w => w.id == 1) =
      [⟨1, 1, 10, 100, 5, some 3⟩]) :=
  ⟨by decide, by decide, by decide,
    (C9_unchanged_match_stays_soft_deleted
      { products := [⟨1, "p", "d", "i", 0, none⟩],
        variants := [⟨1, 1, 10, 100, 5, some 3⟩], purchaseItems := [] }
      1
      { title := some "p2", description := none, imageId := none,
        variants := some [⟨10, 100, 5⟩] }
      9 2 ⟨1, 1, 10, 100, 5, some 3⟩ ⟨10, 100, 5⟩ 3
      (by decide) (by decide) (by decide) (by decide) (by decide)
      (by decide) (by decide) (by decide) (by decide) (by decide)
      (by decide) (by decide)).2.2.2⟩

/-! ## `createProduct` error behaviour -/

/-- Counterexample to claim C4: a validation failure does NOT surface to the
caller as a `ValidationError` with field-level detail — the thrown parse
error is swallowed by the shared `catch`, and the caller receives the same
generic `"Error creating product"` whatever field offends (here: an empty
title versus a negative variant price give byte-identical responses). The
store is untouched in both cases. -/
theorem C4_validation_error_generic_counterexample :
    createProduct
        { products := [], variants := [], purchaseItems := [] }
        { productList := none, countVal := none } cacheOk
        { title := "", description := "d", imageId := "i", variants := [] } 1 1 0 =
      (.err "Error creating product",
        { products := [], variants := [], purchaseItems := [] },
        { productList := none, countVal := none }) ∧
    createProduct
        { products := [], variants := [], purchaseItems := [] }
        { productList := none, countVal := none } cacheOk
        { title := "t", description := "d", imageId := "i",
          variants := [⟨1, -5, 1⟩] } 1 1 0 =
      (.err "Error creating product",
        { products := [], variants := [], purchaseItems := [] },
        { productList := none, countVal := none }) := by
  constructor
  · rfl
  · rfl

/-- Claim C4 (amended): for every input failing product-schema validation,
`createProduct` aborts before any store write — the store and cache are
returned unchanged — but the caller gets only the generic
`"Error creating product"`; the field-level detail of the validation error
is thrown internally (and logged), never returned. -/
theorem C4_invalid_input_aborts_before_store
    (st : Store) (c : CacheState) (beh : CacheBehavior) (data : TProduct)
    (nextPid nextVid now : Nat)
    (hbad : productSchemaErrors data ≠ []) :
    createProduct st c beh data nextPid nextVid now =
      (.err "Error creating product", st, c) := by
  unfold createProduct
  rw [if_pos]
  simpa using hbad

/-- Witness for the amended C4: empty title. -/
theorem C4_invalid_input_aborts_before_store_witness :
    productSchemaErrors
        { title := "", description := "d", imageId := "i", variants := [] } ≠ [] ∧
    createProduct
        { products := [], variants := [], purchaseItems := [] }
        { productList := none, countVal := none } cacheOk
        { title := "", description := "d", imageId := "i", variants := [] } 1 1 0 =
      (.err "Error creating product",
        { products := [], variants := [], purchaseItems := [] },
        { productList := none, countVal := none }) :=
  ⟨by decide,
    C4_invalid_input_aborts_before_store
      { products := [], variants := [], purchaseItems := [] }
      { productList := none, countVal := none } cacheOk
      { title := "", description := "d", imageId := "i", variants := [] }
      1 1 0 (by decide)⟩

/-- Counterexample to claim C5: with a valid input whose transaction commits,
a failing `ProductsCache.set` makes `createProduct` return the generic error
rather than a success — while the committed product and variant rows remain
in the store (the second conjunct exhibits the inserted rows). Cache
failures are therefore fatal to the operation's result, not best-effort. -/
theorem C5_cache_failure_fails_createProduct_counterexample :
    createProduct
        { products := [], variants := [], purchaseItems := [] }
        { productList := none, countVal := none }
        { listSetFails := true, countGetFails := false,
          countSetFails := false, countIncrFails := false }
        { title := "t", description := "d", imageId := "i", variants := [⟨1, 10, 2⟩] }
        1 1 0 =
      (.err "Error creating product",
        createProductTx
          { products := [], variants := [], purchaseItems := [] }
          { title := "t", description := "d", imageId := "i", variants := [⟨1, 10, 2⟩] }
          1 1 0,
        { productList := none, countVal := none }) ∧
    (createProductTx
        { products := [], variants := [], purchaseItems := [] }
        { title := "t", description := "d", imageId := "i", variants := [⟨1, 10, 2⟩] }
        1 1 0).products.length = 1 := by
  constructor
  · rfl
  · rfl

/-- Claim C5 (amended): when the store transaction succeeds but the
subsequent `ProductsCache.set` throws, `createProduct` answers with the
generic creation error — NOT a success — while the committed rows stay in the
returned store (no rollback of the transaction). -/
theorem C5_cache_set_failure_returns_error
    (st : Store) (c : CacheState) (beh : CacheBehavior) (data : TProduct)
    (nextPid nextVid now : Nat)
    (hvalid : productSchemaErrors data = [])
    (hfail : beh.listSetFails = true) :
    createProduct st c beh data nextPid nextVid now =
      (.err "Error creating product", createProductTx st data nextPid nextVid now, c) := by
  simp [createProduct, hvalid, hfail]

/-- Witness for the amended C5 at a concrete valid input. -/
theorem C5_cache_set_failure_returns_error_witness :
    productSchemaErrors
        { title := "t", description := "d", imageId := "i", variants := [⟨1, 10, 2⟩] } = [] ∧
    createProduct
        { products := [], variants := [], purchaseItems := [] }
        { productList := none, countVal := none }
        { listSetFails := true, countGetFails := false,
          countSetFails := false, countIncrFails := false }
        { title := "t", description := "d", imageId := "i", variants := [⟨1, 10, 2⟩] }
        1 1 0 =
      (.err "Error creating product",
        createProductTx
          { products := [], variants := [], purchaseItems := [] }
          { title := "t", description := "d", imageId := "i", variants := [⟨1, 10, 2⟩] }
          1 1 0,
        { productList := none, countVal := none }) :=
  ⟨by decide,
    C5_cache_set_failure_returns_error
      { products := [], variants := [], purchaseItems := [] }
      { productList := none, countVal := none }
      { listSetFails := true, countGetFails := false,
        countSetFails := false, countIncrFails := false }
      { title := "t", description := "d", imageId := "i", variants := [⟨1, 10, 2⟩] }
      1 1 0 (by decide) (by decide)⟩

/-! ## `getProducts` branching -/

theorem getCountWithCache_productList (st : Store) (c : CacheState) :
    ((getCountWithCache st c).2).productList = c.productList := by
  unfold getCountWithCache
  cases c.countVal with
  | none => rfl
  | some t =>
      by_cases h : (t == 0) = true
      · simp [h]
      · simp [h]

/-- Counterexample to claim C6: an ABSENT query is not served from the
cache. `query?.trim() === ""` is false for `undefined`, so the call falls
into the fuzzy-search branch, whose `SIMILARITY` comparison against the
unbound parameter matches nothing: with a warm one-product list cache and
default pagination, the result is the empty fuzzy page, not the cached
list. -/
theorem C6_absent_query_not_cache_served :
    getProducts
        { products := [⟨1, "A", "d", "i", 0, none⟩],
          variants := [⟨1, 1, 5, 10, 1, none⟩], purchaseItems := [] }
        { productList := some [(⟨1, "A", "d", "i", 0, none⟩, [⟨1, 1, 5, 10, 1, none⟩])],
          countVal := some 1 }
        simSample none 0 10 =
      (.ok [] 0,
        { productList := some [(⟨1, "A", "d", "i", 0, none⟩, [⟨1, 1, 5, 10, 1, none⟩])],
          countVal := some 1 }) ∧
    ([] : List (DBProduct × List DBVariant)) ≠
      [(⟨1, "A", "d", "i", 0, none⟩, [⟨1, 1, 5, 10, 1, none⟩])] := by
  constructor
  · rfl
  · decide

/-- Claim C6 (amended): for a PRESENT query trimming to the empty string,
`getProducts` serves the default first page (offset 0, limit 10) from
`ProductsCache`, populating it on miss; any other offset/limit combination
bypasses the cache and reads the store directly, taking `limit` grouped rows
after skipping `offset * limit` rows (offset is a page index) of the
active-products listing ordered by descending id. An absent query does not
reach these branches (see the counterexample). -/
theorem C6_empty_query_branching
    (st : Store) (c : CacheState) (sim : String → String → ℚ) (q : String)
    (offset limit : Nat) (hq : jsTrim q = "") :
    ((offset ≠ 0 ∨ limit ≠ defaultLimit) →
      getProducts st c sim (some q) offset limit =
        (.ok (((listingAll st).drop (offset * limit)).take limit)
          (getCountWithCache st c).1, (getCountWithCache st c).2)) ∧
    (offset = 0 → limit = defaultLimit → ∀ l, c.productList = some l → l ≠ [] →
      getProducts st c sim (some q) offset limit =
        (.ok l (getCountWithCache st c).1, (getCountWithCache st c).2)) ∧
    (offset = 0 → limit = defaultLimit → c.productList = none →
      getProducts st c sim (some q) offset limit =
        (.ok (getProductsFromDBWithoutQuery st 0 defaultLimit)
          (getCountWithCache st c).1,
          { (getCountWithCache st c).2 with
            productList := some (getProductsFromDBWithoutQuery st 0 defaultLimit) })) ∧
    List.Sorted (fun a b => b.1.id ≤ a.1.id) (listingAll st) := by
  have hplist : ((getCountWithCache st c).2).productList = c.productList :=
    getCountWithCache_productList st c
  refine ⟨?_, ?_, ?_, ?_⟩
  · intro h
    have hb : (offset != 0 || limit != defaultLimit) = true := by
      rcases h with h | h <;> simp [h]
    simp [getProducts, hq, hb, getProductsFromDBWithoutQuery]
  · intro h0 hl l hcl hlne
    subst h0
    subst hl
    have hempty : l.isEmpty = false := by
      cases l with
      | nil => exact absurd rfl hlne
      | cons x xs => rfl
    simp [getProducts, hq, hplist, hcl, hempty]
  · intro h0 hl hcl
    subst h0
    subst hl
    simp [getProducts, hq, hplist, hcl]
  · exact List.Pairwise.map _ (fun a b hab => hab)
      (List.sorted_insertionSort idDescend _)

/-- Witness for the amended C6: empty store, empty cache, page index 2. -/
theorem C6_empty_query_branching_witness :
    jsTrim "" = "" ∧
    (((2 ≠ 0 ∨ 10 ≠ defaultLimit) →
      getProducts { products := [], variants := [], purchaseItems := [] }
          { productList := none, countVal := none } simSample (some "") 2 10 =
        (.ok (((listingAll { products := [], variants := [], purchaseItems := [] }).drop
            (2 * 10)).take 10)
          (getCountWithCache { products := [], variants := [], purchaseItems := [] }
            { productList := none, countVal := none }).1,
          (getCountWithCache { products := [], variants := [], purchaseItems := [] }
            { productList := none, countVal := none }).2)) ∧
    (2 = 0 → 10 = defaultLimit → ∀ l,
      ({ productList := none, countVal := none } : CacheState).productList = some l →
        l ≠ [] →
      getProducts { products := [], variants := [], purchaseItems := [] }
          { productList := none, countVal := none } simSample (some "") 2 10 =
        (.ok l
          (getCountWithCache { products := [], variants := [], purchaseItems := [] }
            { productList := none, countVal := none }).1,
          (getCountWithCache { products := [], variants := [], purchaseItems := [] }
            { productList := none, countVal := none }).2)) ∧
    (2 = 0 → 10 = defaultLimit →
      ({ productList := none, countVal := none } : CacheState).productList = none →
      getProducts { products := [], variants := [], purchaseItems := [] }
          { productList := none, countVal := none } simSample (some "") 2 10 =
        (.ok (getProductsFromDBWithoutQuery
            { products := [], variants := [], purchaseItems := [] } 0 defaultLimit)
          (getCountWithCache { products := [], variants := [], purchaseItems := [] }
            { productList := none, countVal := none }).1,
          { (getCountWithCache { products := [], variants := [], purchaseItems := [] }
              { productList := none, countVal := none }).2 with
            productList := some (getProductsFromDBWithoutQuery
              { products := [], variants := [], purchaseItems := [] } 0 defaultLimit) })) ∧
    List.Sorted (fun a b => b.1.id ≤ a.1.id)
      (listingAll { products := [], variants := [], purchaseItems := [] })) :=
  ⟨by decide,
    C6_empty_query_branching
      { products := [], variants := [], purchaseItems := [] }
      { productList := none, countVal := none } simSample "" 2 10 (by decide)⟩

/-! ## Fuzzy search -/

theorem isEmpty_false_iff_ne_nil {α : Type} {l : List α} : l.isEmpty = false ↔ l ≠ [] := by
  cases l <;> simp

/-- Counterexample to claim C7: the result set is NOT "exactly the
non-deleted products with similarity above 0.3" — the query inner-joins
variants with `deletedAt IS NULL`, so a non-deleted product whose similarity
score is 0.9 but whose only variant is soft-deleted is excluded. -/
theorem C7_matching_product_without_active_variant_excluded :
    getProducts
        { products := [⟨1, "D", "d", "i", 0, none⟩],
          variants := [⟨1, 1, 5, 10, 1, some 2⟩], purchaseItems := [] }
        { productList := none, countVal := some 1 } simSample (some "x") 0 10 =
      (.ok [] 0, { productList := none, countVal := some 1 }) ∧
    mkRat 3 10 < simSample "D" "x" ∧
    (⟨1, "D", "d", "i", 0, none⟩ : DBProduct).deletedAt = none := by
  refine ⟨rfl, by decide, rfl⟩

/-- Claim C7 (amended): for a present non-blank query, within the requested
page window (offset 0, limit at least the number of matches), the fuzzy
search returns exactly the non-deleted products that have at least one
non-deleted variant and whose title similarity to the query is strictly
greater than 0.3 (a score of exactly 0.3 is excluded), ordered by descending
similarity score. -/
theorem C7_fuzzy_search_threshold
    (st : Store) (c : CacheState) (sim : String → String → ℚ) (q : String) (limit : Nat)
    (hq : jsTrim q ≠ "")
    (hlim : (fuzzyMatches st sim (some q)).length ≤ limit) :
    (getProducts st c sim (some q) 0 limit).1 =
      .ok (fuzzyPage st sim (some q) 0 limit)
        (if (fuzzyPage st sim (some q) 0 limit).isEmpty then 0
          else ((fuzzyMatches st sim (some q)).length : Int)) ∧
    (∀ p, p ∈ (fuzzyPage st sim (some q) 0 limit).map Prod.fst ↔
      (p ∈ st.products ∧ p.deletedAt = none ∧ activeVariantRows st p.id ≠ [] ∧
        mkRat 3 10 < sim p.title q)) ∧
    List.Sorted (fun a b => sim b.1.title q ≤ sim a.1.title q)
      (fuzzyPage st sim (some q) 0 limit) := by
  have hpage : (fuzzyPage st sim (some q) 0 limit).map Prod.fst =
      (fuzzyMatches st sim (some q)).insertionSort (simDescend sim (some q)) := by
    unfold fuzzyPage
    rw [List.map_map, Nat.zero_mul, List.drop_zero, List.take_of_length_le]
    · exact List.map_id _
    · rw [(List.perm_insertionSort _ _).length_eq]
      exact hlim
  refine ⟨?_, ?_, ?_⟩
  · simp [getProducts, hq]
  · intro p
    rw [hpage, List.mem_insertionSort]
    unfold fuzzyMatches
    rw [List.mem_filter]
    simp only [simGtThreshold, Bool.and_eq_true, decide_eq_true_eq,
      Option.isNone_iff_eq_none, Bool.not_eq_true', isEmpty_false_iff_ne_nil]
    constructor
    · rintro ⟨hmem, ⟨hsim, hdel⟩, hact⟩
      exact ⟨hmem, hdel, hact, hsim⟩
    · rintro ⟨hmem, hdel, hact, hsim⟩
      exact ⟨hmem, ⟨hsim, hdel⟩, hact⟩
  · unfold fuzzyPage
    apply List.Pairwise.map
    · intro a b hab
      exact hab
    · exact List.Pairwise.sublist
        ((List.take_sublist _ _).trans (List.drop_sublist _ _))
        (List.sorted_insertionSort (simDescend sim (some q)) _)


/-- Witness for the amended C7: titles scoring 0.31 (included), 0.30
(excluded: the threshold is strict) and 0.25 (excluded). -/
theorem C7_fuzzy_search_threshold_witness :
    jsTrim "x" ≠ "" ∧
    (fuzzyMatches stC7 simSample (some "x")).length ≤ 10 ∧
    ((getProducts stC7 { productList := none, countVal := some 3 } simSample
        (some "x") 0 10).1 =
      .ok (fuzzyPage stC7 simSample (some "x") 0 10)
        (if (fuzzyPage stC7 simSample (some "x") 0 10).isEmpty then 0
          else ((fuzzyMatches stC7 simSample (some "x")).length : Int)) ∧
    (∀ p, p ∈ (fuzzyPage stC7 simSample (some "x") 0 10).map Prod.fst ↔
      (p ∈ stC7.products ∧ p.deletedAt = none ∧
        activeVariantRows stC7 p.id ≠ [] ∧ mkRat 3 10 < simSample p.title "x")) ∧
    List.Sorted (fun a b => simSample b.1.title "x" ≤ simSample a.1.title "x")
      (fuzzyPage stC7 simSample (some "x") 0 10)) :=
  ⟨by decide, by decide,
    C7_fuzzy_search_threshold stC7 { productList := none, countVal := some 3 }
      simSample "x" 10 (by decide) (by decide)⟩

/-! ## Per-variant sales aggregation -/

/-- Counterexample to claim C8: `getProductVariants` filters only on
`variants.productId` — there is no `deletedAt IS NULL` condition — so the
soft-deleted size-7 variant gets a row too: two rows come back although the
product has exactly one active variant. -/
theorem C8_soft_deleted_variant_included_counterexample :
    (getProductVariants stC8 1).length = 2 ∧
    (stC8.variants.filter fun v => v.productId == 1 && v.deletedAt.isNone).length = 1 ∧
    (⟨2, 7, 2, 20, none, none⟩ : SaleRow) ∈ getProductVariants stC8 1 := by
  decide

/-- Claim C8 (amended): `getProductVariants` returns one row for EVERY
variant of the product (soft-deleted ones included — the query has no
deletion filter), left-joined to purchase items so that a variant with no
purchase items still appears with `sold` and `revenue` as SQL `NULL`
(null-as-zero), revenue aggregated as the sum of quantity × unit price, rows
ordered by ascending size. -/
theorem C8_variant_sales_rows (st : Store) (id : Nat) :
    (getProductVariants st id).length =
      (st.variants.filter fun v => v.productId == id).length ∧
    (∀ v ∈ st.variants, v.productId = id →
      saleRowOf st v ∈ getProductVariants st id) ∧
    (∀ v ∈ st.variants, v.productId = id →
      itemsOfVariant st.purchaseItems v.id = [] →
      (saleRowOf st v).sold = none ∧ (saleRowOf st v).revenue = none) ∧
    (∀ v ∈ st.variants, v.productId = id →
      (saleRowOf st v).sold =
        sqlSumInt ((itemsOfVariant st.purchaseItems v.id).map fun it => it.quantity) ∧
      (saleRowOf st v).revenue =
        sqlSumInt ((itemsOfVariant st.purchaseItems v.id).map
          fun it => it.quantity * it.price)) ∧
    List.Sorted (fun a b => a.size ≤ b.size) (getProductVariants st id) := by
  refine ⟨?_, ?_, ?_, ?_, ?_⟩
  · unfold getProductVariants
    rw [List.length_map, (List.perm_insertionSort _ _).length_eq]
  · intro v hv hvp
    unfold getProductVariants
    apply List.mem_map_of_mem
    rw [List.mem_insertionSort]
    exact List.mem_filter.mpr ⟨hv, beq_iff_eq.mpr hvp⟩
  · intro v hv hvp hitems
    have h1 : (saleRowOf st v).sold =
        sqlSumInt ((itemsOfVariant st.purchaseItems v.id).map fun it => it.quantity) := rfl
    have h2 : (saleRowOf st v).revenue =
        sqlSumInt ((itemsOfVariant st.purchaseItems v.id).map
          fun it => it.quantity * it.price) := rfl
    rw [h1, h2, hitems]
    exact ⟨rfl, rfl⟩
  · intro v hv hvp
    exact ⟨rfl, rfl⟩
  · unfold getProductVariants
    apply List.Pairwise.map
    · intro a b hab
      exact hab
    · exact List.sorted_insertionSort sizeAscend _

/-- Witness for the amended C8 at the two-variant sample store. -/
theorem C8_variant_sales_rows_witness :
    (getProductVariants stC8 1).length =
      (stC8.variants.filter fun v => v.productId == 1).length ∧
    (∀ v ∈ stC8.variants, v.productId = 1 →
      saleRowOf stC8 v ∈ getProductVariants stC8 1) ∧
    (∀ v ∈ stC8.variants, v.productId = 1 →
      itemsOfVariant stC8.purchaseItems v.id = [] →
      (saleRowOf stC8 v).sold = none ∧ (saleRowOf stC8 v).revenue = none) ∧
    (∀ v ∈ stC8.variants, v.productId = 1 →
      (saleRowOf stC8 v).sold =
        sqlSumInt ((itemsOfVariant stC8.purchaseItems v.id).map fun it => it.quantity) ∧
      (saleRowOf stC8 v).revenue =
        sqlSumInt ((itemsOfVariant stC8.purchaseItems v.id).map
          fun it => it.quantity * it.price)) ∧
    List.Sorted (fun a b => a.size ≤ b.size) (getProductVariants stC8 1) :=
  C8_variant_sales_rows stC8 1

/-! ## Count versus listing -/

theorem length_filter_lt_of_mem_not {α : Type} {Q : α → Bool} {l : List α} {a : α}
    (ha : a ∈ l) (hQa : Q a = false) : (l.filter Q).length < l.length := by
  induction l with
  | nil => cases ha
  | cons x xs ih =>
      rcases List.mem_cons.mp ha with rfl | ha'
      · simp only [List.filter_cons, hQa, Bool.false_eq_true, if_false, List.length_cons]
        exact Nat.lt_succ_of_le (List.length_filter_le _ _)
      · cases hx : Q x with
        | true =>
            simp only [List.filter_cons, hx, if_true, List.length_cons]
            exact Nat.succ_lt_succ (ih ha')
        | false =>
            simp only [List.filter_cons, hx, Bool.false_eq_true, if_false,
              List.length_cons]
            exact Nat.lt_succ_of_lt (ih ha')

theorem filter_stronger_eq {α : Type} {P Q : α → Bool} {l : List α}
    (himp : ∀ x ∈ l, Q x = true → P x = true) :
    l.filter Q = (l.filter P).filter Q := by
  induction l with
  | nil => rfl
  | cons x xs ih =>
      have ih' := ih fun y hy => himp y (List.mem_cons_of_mem x hy)
      cases hq : Q x with
      | true =>
          have hp : P x = true := himp x (List.mem_cons_self x xs) hq
          simp [List.filter_cons, hq, hp, ih']
      | false =>
          cases hp : P x with
          | true => simp [List.filter_cons, hq, hp, ih']
          | false => simp [List.filter_cons, hq, hp, ih']

/-- Claim C10: a non-deleted product all of whose variants are soft-deleted
is omitted from every page of the default listing (the inner join is
restricted to variants with a null deletion timestamp), while
`getProductsCountFromDB` counts every non-deleted product regardless of
variants; hence the reported total strictly exceeds the number of products
the listing can ever return. -/
theorem C10_count_exceeds_listing (st : Store) (p : DBProduct)
    (hp : p ∈ st.products) (hpd : p.deletedAt = none)
    (hall : ∀ v ∈ st.variants, v.productId = p.id → v.deletedAt ≠ none) :
    (∀ offset limit, (getProductsFromDBWithoutQuery st offset limit).map Prod.fst ⊆
      (listingAll st).map Prod.fst) ∧
    (∀ offset limit, p ∉ (getProductsFromDBWithoutQuery st offset limit).map Prod.fst) ∧
    (listingAll st).length < getProductsCountFromDB st := by
  have hact : activeVariantRows st p.id = [] := by
    apply List.filter_eq_nil_iff.mpr
    intro v hv
    simp only [Bool.and_eq_true, beq_iff_eq, Option.isNone_iff_eq_none, not_and]
    intro hpid
    exact hall v hv hpid
  have hsub : ∀ offset limit,
      (getProductsFromDBWithoutQuery st offset limit).map Prod.fst ⊆
        (listingAll st).map Prod.fst := by
    intro offset limit
    exact (List.Sublist.map Prod.fst
      ((List.take_sublist _ _).trans (List.drop_sublist _ _))).subset
  have hnotin : p ∉ (listingAll st).map Prod.fst := by
    unfold listingAll
    intro hmem
    rcases List.mem_map.mp hmem with ⟨pr, hpr, hfst⟩
    rcases List.mem_map.mp hpr with ⟨x, hx, rfl⟩
    cases hfst
    rw [List.mem_insertionSort] at hx
    have hQp := (List.mem_filter.mp hx).2
    simp [hpd, hact] at hQp
  refine ⟨hsub, ?_, ?_⟩
  · intro offset limit hmem
    exact hnotin (hsub offset limit hmem)
  · have heq : (listingAll st).length =
        (st.products.filter fun x =>
          x.deletedAt.isNone && !(activeVariantRows st x.id).isEmpty).length := by
      unfold listingAll
      rw [List.length_map, (List.perm_insertionSort _ _).length_eq]
    have himp : ∀ x ∈ st.products,
        (x.deletedAt.isNone && !(activeVariantRows st x.id).isEmpty) = true →
        x.deletedAt.isNone = true := by
      intro x hx h
      have h2 : x.deletedAt.isNone = true ∧
          (!(activeVariantRows st x.id).isEmpty) = true := by
        simpa using h
      exact h2.1
    rw [heq]
    unfold getProductsCountFromDB
    rw [filter_stronger_eq himp]
    apply length_filter_lt_of_mem_not
    · exact List.mem_filter.mpr ⟨hp, by simp [hpd]⟩
    · simp [hpd, hact]

/-- Witness for C10 at the sample store whose product 2 is live but has only
a soft-deleted variant: the count is 2 while the listing can only ever
contain product 1. -/
theorem C10_count_exceeds_listing_witness :
    (⟨2, "q", "d", "i", 0, none⟩ : DBProduct) ∈ stC10.products ∧
    (∀ offset limit, (getProductsFromDBWithoutQuery stC10 offset limit).map Prod.fst ⊆
      (listingAll stC10).map Prod.fst) ∧
    (∀ offset limit,
      (⟨2, "q", "d", "i", 0, none⟩ : DBProduct) ∉
        (getProductsFromDBWithoutQuery stC10 offset limit).map Prod.fst) ∧
    (listingAll stC10).length < getProductsCountFromDB stC10 :=
  ⟨by decide,
    C10_count_exceeds_listing stC10 ⟨2, "q", "d", "i", 0, none⟩
      (by decide) (by decide) (by decide)⟩
